import Mathlib

/-!
# Verification of the orus-school code-execution and grading engine

A shallow embedding of the execution backend (`backend/app/code_runner.py`)
and the grading harness (`execute_tests` in `backend/app/routes.py`),
together with theorems settling the specification claims about them.

Process execution and the wall clock are modelled by an oracle (`ExecEnv`):
`runProc` gives, for a command line, an optional stdin text, a timeout and a
working directory, the outcome of `subprocess.run` (normal completion,
`FileNotFoundError`, or `TimeoutExpired`), and `elapsed` is the wall-clock
duration the `time.perf_counter()` pair measures around the run step.
-/

set_option linter.unusedVariables false

namespace OrusSchool

/-- Outcome of one `subprocess.run` call: either a `CompletedProcess`
(captured stdout, stderr and return code), a `FileNotFoundError` carrying
the optional `filename` attribute, or a `TimeoutExpired` carrying the
optional partial `stdout` / `stderr` captured so far. -/
inductive ProcResult where
  | completed (stdout stderr : String) (returncode : Int)
  | fileNotFound (filename : Option String)
  | timedOut (stdout stderr : Option String)
  deriving DecidableEq, Repr

/-- `true` exactly on the `TimeoutExpired` outcome. -/
def ProcResult.isTimedOut : ProcResult → Bool
  | .timedOut _ _ => true
  | _ => false

/-- The process/clock oracle for one `run_code` call: `runProc cmd input
timeout cwd` is the outcome `subprocess.run` produces, `elapsed` the duration
`time.perf_counter() - start` measures for the run step, and `workdir` the
fresh temporary directory `tempfile.TemporaryDirectory` yields. -/
structure ExecEnv where
  runProc : List String → Option String → Nat → String → ProcResult
  elapsed : ℚ
  workdir : String

/-- One entry of `LANGUAGE_CONFIGS` (`code_runner.py` lines 19-31): the
dict keys `source_ext`, optional `compile`, `run`, and optional `timeout`. -/
structure LanguageConfig where
  source_ext : String
  compile : Option (List String) := none
  run : List String
  timeout : Option Nat := none
  deriving DecidableEq, Repr

/-- `LANGUAGE_CONFIGS` from `code_runner.py` lines 19-31. -/
def LANGUAGE_CONFIGS : List (String × LanguageConfig) :=
  [ ("python",
      { source_ext := ".py"
        run := ["python3", "{source}"]
        timeout := some 8 }),
    ("c",
      { source_ext := ".c"
        compile := some ["gcc", "{source}", "-o", "{binary}"]
        run := ["{binary}"]
        timeout := some 10 }) ]

/-- Python `str.lower()` as used on the language identifier
(`code_runner.py` line 41), modelled over the character list so that
concrete lookups evaluate. -/
def strLower (s : String) : String :=
  ⟨s.data.map Char.toLower⟩

/-- Python `str.strip()` as used on outputs (`routes.py` lines 687-688):
leading and trailing whitespace removed, modelled over the character list
so that concrete comparisons evaluate. -/
def strStrip (s : String) : String :=
  ⟨((s.data.dropWhile Char.isWhitespace).reverse.dropWhile
      Char.isWhitespace).reverse⟩

/-- `LANGUAGE_CONFIGS.get(language.lower())` (`code_runner.py` line 41). -/
def resolve (language : String) : Option LanguageConfig :=
  (LANGUAGE_CONFIGS.lookup (strLower language))

/-- `int(config.get("timeout", 8))` (`code_runner.py` line 45). -/
def effectiveTimeout (config : LanguageConfig) : Nat :=
  config.timeout.getD 8

/-- Models Python `part.format(source=..., binary=...)` on one command token
(`code_runner.py` line 35).  Every token ever passed (the tokens of
`LANGUAGE_CONFIGS`) is either exactly the replacement field `"\x7bsource\x7d"`,
exactly `"\x7bbinary\x7d"`, or literal text containing no replacement field,
so `str.format` substitutes the whole token or leaves it unchanged. -/
def formatPart (source binary part : String) : String :=
  if part = "{source}" then source
  else if part = "{binary}" then binary
  else part

/-- `_format_command` (`code_runner.py` lines 34-35). -/
def formatCommand (command : List String) (source binary : String) : List String :=
  command.map (formatPart source binary)

/-- `workdir / f"Main{config['source_ext']}"` (`code_runner.py` line 49). -/
def sourcePath (env : ExecEnv) (config : LanguageConfig) : String :=
  env.workdir ++ "/Main" ++ config.source_ext

/-- `workdir / "app.out"` (`code_runner.py` line 51). -/
def binaryPath (env : ExecEnv) : String :=
  env.workdir ++ "/app.out"

/-- The formatted run command `_format_command(config["run"], ...)`
(`code_runner.py` line 78). -/
def runCommand (env : ExecEnv) (config : LanguageConfig) : List String :=
  formatCommand config.run (sourcePath env config) (binaryPath env)

/-- The dict `run_code` returns (`code_runner.py`): keys `stdout`, `stderr`,
`exit_code`, `execution_time`. -/
structure ExecResult where
  stdout : String
  stderr : String
  exit_code : Int
  execution_time : ℚ
  deriving DecidableEq, Repr

/-- The ways `run_code` raises instead of returning: the explicit
`ExecutionError` for an unknown language (`code_runner.py` line 43), and a
`subprocess.TimeoutExpired` escaping the compile step, which lines 55-70
do not catch. -/
inductive ExecError where
  | unsupportedLanguage (language : String)
  | uncaughtTimeoutExpired
  deriving DecidableEq, Repr

/-- The run step of `run_code` (`code_runner.py` lines 78-112): the
`subprocess.run` of the formatted run command under the effective timeout,
whose `try`/`except` arms each return a result dict — this step never lets
an exception escape. -/
def runStep (env : ExecEnv) (config : LanguageConfig) (stdin : Option String) :
    ExecResult :=
  match env.runProc (runCommand env config) stdin (effectiveTimeout config)
      env.workdir with
  | .completed out err rc =>
      { stdout := out, stderr := err, exit_code := rc
        execution_time := env.elapsed }
  | .fileNotFound fn =>
      { stdout := ""
        stderr := "Command not found: " ++ fn.getD ((runCommand env config).headD "")
        exit_code := 127, execution_time := env.elapsed }
  | .timedOut pso pse =>
      { stdout := pso.getD ""
        stderr := pse.getD "" ++ "\nExecution timed out."
        exit_code := -1, execution_time := env.elapsed }

/-- The outcome of the compile step of a `run_code` call (`code_runner.py`
lines 53-62): `none` when `config.get("compile")` is absent or falsy (an
empty list) and the step is skipped; otherwise the `subprocess.run` outcome
of the formatted compile command under the effective timeout, with no stdin,
in the workspace. -/
def compileOutcome (env : ExecEnv) (config : LanguageConfig) : Option ProcResult :=
  match config.compile with
  | none => none
  | some compile_cmd =>
    if compile_cmd.isEmpty then none
    else some (env.runProc
      (formatCommand compile_cmd (sourcePath env config) (binaryPath env))
      none (effectiveTimeout config) env.workdir)

/-- `run_code` (`code_runner.py` lines 38-112).  The workspace, source-file
write and process launches are factored through `env`; the returned dict
becomes `Except.ok`, a raised exception `Except.error`.  The compile step's
`try` catches only `FileNotFoundError` (line 63), so a compile-step
`TimeoutExpired` escapes as an error; every run-step outcome is returned as
data by `runStep`. -/
def run_code (env : ExecEnv) (language : String) (code : String)
    (stdin : Option String) : Except ExecError ExecResult :=
  match resolve language with
  | none => .error (.unsupportedLanguage language)
  | some config =>
    match compileOutcome env config with
    | none => .ok (runStep env config stdin)
    | some (.completed out err rc) =>
        if rc ≠ 0 then
          .ok { stdout := out, stderr := err, exit_code := rc
                execution_time := 0 }
        else .ok (runStep env config stdin)
    | some (.fileNotFound fn) =>
        .ok { stdout := ""
              stderr := "Command not found: " ++
                fn.getD ((config.compile.getD []).headD "")
              exit_code := 127, execution_time := 0 }
    | some (.timedOut _ _) => .error .uncaughtTimeoutExpired

/-- Whether the `with tempfile.TemporaryDirectory()` block (`code_runner.py`
line 47) is entered: the unsupported-language `raise` on line 43 comes first,
so a workspace is created exactly when the lookup succeeds. -/
def workspaceCreated (language : String) : Bool :=
  (resolve language).isSome

/-! ## The grading harness: `execute_tests` (`routes.py` lines 662-721) -/

/-- One `ExerciseTest` row (`models.py` lines 101-111): the columns the
harness reads, plus the per-test `timeout` column it never reads. -/
structure ExerciseTest where
  id : Nat
  input_data : Option String
  expected_output : String
  is_hidden : Bool
  timeout : Nat
  deriving DecidableEq, Repr

/-- `schemas.TestCaseResult` (`schemas.py` lines 256-262). -/
structure TestCaseResult where
  test_id : Nat
  passed : Bool
  stdout : String
  stderr : String
  expected_output : String
  input_data : Option String
  deriving DecidableEq, Repr

/-- `schemas.RunTestsResponse` (`schemas.py` lines 265-267). -/
structure RunTestsResponse where
  passed_all : Bool
  results : List TestCaseResult
  deriving DecidableEq, Repr

/-- The pass rule of `routes.py` lines 687-690:
`passed = exit_code == 0 and stdout.strip() == test.expected_output.strip()`. -/
def testPassed (test : ExerciseTest) (execution : ExecResult) : Bool :=
  (execution.exit_code == 0) &&
    (strStrip execution.stdout == strStrip test.expected_output)

/-- The `TestCaseResult` appended for one test (`routes.py` lines 691-700). -/
def mkTestCaseResult (test : ExerciseTest) (execution : ExecResult) :
    TestCaseResult :=
  { test_id := test.id
    passed := testPassed test execution
    stdout := execution.stdout
    stderr := execution.stderr
    expected_output := test.expected_output
    input_data := test.input_data }

/-- Insertion step of the stable sort `sorted(exercise.tests, key=lambda
test: test.id)` (`routes.py` line 672). -/
def insertTest (t : ExerciseTest) : List ExerciseTest → List ExerciseTest
  | [] => [t]
  | u :: us => if t.id ≤ u.id then t :: u :: us else u :: insertTest t us

/-- `sorted(exercise.tests, key=lambda test: test.id)` (`routes.py` line 672),
as an insertion sort on the stable integer test id. -/
def sortTests : List ExerciseTest → List ExerciseTest
  | [] => []
  | t :: ts => insertTest t (sortTests ts)

/-- How `execute_tests` aborts instead of returning a verdict: the guard
`HTTPException(400)` for an exercise without tests (`routes.py` line 674),
the `HTTPException(400)` an `ExecutionError` is converted to (lines 682-683),
and an exception `run_code` lets escape (the compile-step
`TimeoutExpired`), which nothing in the harness catches. -/
inductive HarnessError where
  | noTests
  | httpBadRequest (detail : String)
  | uncaughtTimeoutExpired
  deriving DecidableEq, Repr

/-- The `for test in tests:` loop of `routes.py` lines 679-703, threading the
`all_passed` flag; results are produced in iteration order.  The loop breaks
right after appending a result whose execution had a non-zero exit code. -/
def gradeLoop (env : ExecEnv) (language : String) (code : String) :
    List ExerciseTest → Bool → Except ExecError (List TestCaseResult × Bool)
  | [], all_passed => .ok ([], all_passed)
  | test :: rest, all_passed =>
    match run_code env language code test.input_data with
    | .error e => .error e
    | .ok execution =>
      let passed := testPassed test execution
      let result := mkTestCaseResult test execution
      let all_passed := if !passed then false else all_passed
      if execution.exit_code ≠ 0 then .ok ([result], all_passed)
      else
        match gradeLoop env language code rest all_passed with
        | .error e => .error e
        | .ok (results, flag) => .ok (result :: results, flag)

/-- `execute_tests` (`routes.py` lines 662-721), restricted to the grading
computation: the exercise's tests are sorted by id, an empty list is a 400,
the loop runs with `all_passed` initially `True`, and the verdict is
`RunTestsResponse(passed_all=all_passed, results=results)`.  The
progress-store writes after the loop consume the verdict and do not alter
it. -/
def execute_tests (env : ExecEnv) (language : String) (code : String)
    (tests : List ExerciseTest) : Except HarnessError RunTestsResponse :=
  let sorted := sortTests tests
  if sorted.isEmpty then .error .noTests
  else
    match gradeLoop env language code sorted true with
    | .error (.unsupportedLanguage l) =>
        .error (.httpBadRequest ("Unsupported language: " ++ l))
    | .error .uncaughtTimeoutExpired => .error .uncaughtTimeoutExpired
    | .ok (results, all_passed) =>
        .ok { passed_all := all_passed, results := results }

/-- Two `ExerciseTest` rows that agree on every column the harness reads and
may differ in the per-test `timeout` column. -/
def SameExceptTimeout (t u : ExerciseTest) : Prop :=
  t.id = u.id ∧ t.input_data = u.input_data ∧
    t.expected_output = u.expected_output ∧ t.is_hidden = u.is_hidden

/-- Equality of `Except` results is decidable, so concrete runs can be
checked by `decide`. -/
instance {ε α : Type} [DecidableEq ε] [DecidableEq α] :
    DecidableEq (Except ε α) := fun a b =>
  match a, b with
  | .ok x, .ok y =>
    if h : x = y then .isTrue (congrArg Except.ok h)
    else .isFalse (fun hh => h (Except.ok.inj hh))
  | .error x, .error y =>
    if h : x = y then .isTrue (congrArg Except.error h)
    else .isFalse (fun hh => h (Except.error.inj hh))
  | .ok x, .error y => .isFalse (fun hh => Except.noConfusion hh)
  | .error x, .ok y => .isFalse (fun hh => Except.noConfusion hh)

/-! ## Concrete environments and tests used by the witnesses and
counterexamples -/

/-- A process oracle that always completes with exit 0, echoing stdin. -/
def envEcho : ExecEnv :=
  { runProc := fun _ i _ _ => .completed ("hi " ++ i.getD "-" ++ "\n") "" 0
    elapsed := 1, workdir := "/ws" }

/-- A process oracle that crashes (exit 1) exactly when stdin is `"a"`. -/
def envCrashOnA : ExecEnv :=
  { runProc := fun _ i _ _ =>
      if i = some "a" then .completed "" "crash" 1 else .completed "ok\n" "" 0
    elapsed := 1, workdir := "/ws" }

/-- A process oracle whose gcc invocation fails with exit 1. -/
def envCompileFail : ExecEnv :=
  { runProc := fun cmd _ _ _ =>
      if cmd.headD "" = "gcc" then .completed "" "boom" 1
      else .completed "ran" "" 0
    elapsed := 2, workdir := "/ws" }

/-- A process oracle whose gcc invocation exceeds its timeout. -/
def envCompileTimeout : ExecEnv :=
  { runProc := fun cmd _ _ _ =>
      if cmd.headD "" = "gcc" then .timedOut none none
      else .completed "ran" "" 0
    elapsed := 2, workdir := "/ws" }

/-- A process oracle whose gcc invocation succeeds but whose run step times
out with partial output captured. -/
def envRunTimeout : ExecEnv :=
  { runProc := fun cmd _ _ _ =>
      if cmd.headD "" = "gcc" then .completed "" "" 0
      else .timedOut (some "par") (some "err")
    elapsed := 3, workdir := "/ws" }

/-- A process oracle that times out exactly under an 8-second timeout and
completes instantly under every other timeout value. -/
def envProbe : ExecEnv :=
  { runProc := fun _ _ t _ =>
      if t = 8 then .timedOut none none else .completed "done" "" 0
    elapsed := 9, workdir := "/ws" }

/-- Like `envEcho` under an 8-second timeout, but timing out under every
other timeout value: used to show only the profile default is consulted. -/
def envEchoAlt : ExecEnv :=
  { runProc := fun _ i t _ =>
      if t = 8 then .completed ("hi " ++ i.getD "-" ++ "\n") "" 0
      else .timedOut none none
    elapsed := 1, workdir := "/ws" }

/-- Test rows used by witnesses. -/
def wtest1 : ExerciseTest := ⟨1, some "a", "ok", true, 5⟩

def wtest2 : ExerciseTest := ⟨2, some "b", "ok", true, 5⟩

def wtest3 : ExerciseTest := ⟨3, some "c", "ok", true, 7⟩

/-- Like `wtest2` except for the per-test `timeout` column. -/
def wtest2big : ExerciseTest := ⟨2, some "b", "ok", true, 99⟩

/-- A test row whose expected output matches `envEcho`'s stdout once both
sides are stripped. -/
def wtestEcho : ExerciseTest := ⟨1, some "a", "hi a", true, 5⟩

/-! ## Helper lemmas -/

theorem insertTest_length (t : ExerciseTest) (ts : List ExerciseTest) :
    (insertTest t ts).length = ts.length + 1 := by
  induction ts with
  | nil => rfl
  | cons u us ih =>
    simp only [insertTest]
    split <;> simp [ih]

theorem sortTests_length (ts : List ExerciseTest) :
    (sortTests ts).length = ts.length := by
  induction ts with
  | nil => rfl
  | cons t ts ih => simp [sortTests, insertTest_length, ih]

theorem mem_insertTest {a t : ExerciseTest} {ts : List ExerciseTest} :
    a ∈ insertTest t ts ↔ a = t ∨ a ∈ ts := by
  induction ts with
  | nil => simp [insertTest]
  | cons u us ih =>
    simp only [insertTest]
    split
    · simp
    · simp [ih]
      tauto

theorem mem_sortTests {a : ExerciseTest} {ts : List ExerciseTest} :
    a ∈ sortTests ts ↔ a ∈ ts := by
  induction ts with
  | nil => exact Iff.rfl
  | cons t ts ih => simp [sortTests, mem_insertTest, ih]

theorem testPassed_of_exit_ne {t : ExerciseTest} {ex : ExecResult}
    (h : ex.exit_code ≠ 0) : testPassed t ex = false := by
  simp [testPassed, h]

theorem gradeLoop_break (env : ExecEnv) (l c : String) (t : ExerciseTest)
    (rest : List ExerciseTest) (all : Bool) (ex : ExecResult)
    (hex : run_code env l c t.input_data = .ok ex) (h0 : ex.exit_code ≠ 0) :
    gradeLoop env l c (t :: rest) all = .ok ([mkTestCaseResult t ex], false) := by
  simp only [gradeLoop, hex]
  rw [if_pos h0, testPassed_of_exit_ne h0]
  rfl

theorem gradeLoop_continue (env : ExecEnv) (l c : String) (t : ExerciseTest)
    (rest : List ExerciseTest) (all : Bool) (ex : ExecResult)
    (hex : run_code env l c t.input_data = .ok ex) (h0 : ex.exit_code = 0) :
    gradeLoop env l c (t :: rest) all =
      (gradeLoop env l c rest (if !testPassed t ex then false else all)).map
        (fun p => (mkTestCaseResult t ex :: p.1, p.2)) := by
  simp only [gradeLoop, hex]
  rw [if_neg (by simp [h0])]
  cases gradeLoop env l c rest (if !testPassed t ex then false else all) with
  | error e => rfl
  | ok p => rfl

theorem gradeLoop_flag_iff (env : ExecEnv) (l c : String) :
    ∀ (ts : List ExerciseTest) (all : Bool) (rs : List TestCaseResult)
      (fl : Bool), gradeLoop env l c ts all = .ok (rs, fl) →
      (fl = true ↔ (all = true ∧ ∀ r ∈ rs, r.passed = true)) := by
  intro ts
  induction ts with
  | nil =>
    intro all rs fl h
    simp only [gradeLoop, Except.ok.injEq, Prod.mk.injEq] at h
    obtain ⟨rfl, rfl⟩ := h
    simp
  | cons t rest ih =>
    intro all rs fl h
    cases hrc : run_code env l c t.input_data with
    | error e => simp [gradeLoop, hrc] at h
    | ok ex =>
      by_cases h0 : ex.exit_code = 0
      · rw [gradeLoop_continue env l c t rest all ex hrc h0] at h
        cases hrec : gradeLoop env l c rest
            (if !testPassed t ex then false else all) with
        | error e => rw [hrec] at h; simp [Except.map] at h
        | ok p =>
          obtain ⟨rs', fl'⟩ := p
          rw [hrec] at h
          simp only [Except.map, Except.ok.injEq, Prod.mk.injEq] at h
          obtain ⟨rfl, rfl⟩ := h
          have hiff := ih _ _ _ hrec
          have hall : (if !testPassed t ex then false else all)
              = (all && testPassed t ex) := by
            cases testPassed t ex <;> simp
          rw [hall] at hiff
          have hhead : (mkTestCaseResult t ex).passed = testPassed t ex := rfl
          simp only [List.forall_mem_cons, hhead]
          rw [hiff]
          simp only [Bool.and_eq_true, and_assoc]
      · rw [gradeLoop_break env l c t rest all ex hrc h0] at h
        simp only [Except.ok.injEq, Prod.mk.injEq] at h
        obtain ⟨rfl, rfl⟩ := h
        simp [mkTestCaseResult, testPassed_of_exit_ne h0]

theorem gradeLoop_results_mem (env : ExecEnv) (l c : String) :
    ∀ (ts : List ExerciseTest) (all : Bool) (rs : List TestCaseResult)
      (fl : Bool), gradeLoop env l c ts all = .ok (rs, fl) →
      ∀ r ∈ rs, ∃ t ex, t ∈ ts ∧ run_code env l c t.input_data = .ok ex ∧
        r = mkTestCaseResult t ex := by
  intro ts
  induction ts with
  | nil =>
    intro all rs fl h
    simp only [gradeLoop, Except.ok.injEq, Prod.mk.injEq] at h
    obtain ⟨rfl, rfl⟩ := h
    simp
  | cons t rest ih =>
    intro all rs fl h
    cases hrc : run_code env l c t.input_data with
    | error e => simp [gradeLoop, hrc] at h
    | ok ex =>
      by_cases h0 : ex.exit_code = 0
      · rw [gradeLoop_continue env l c t rest all ex hrc h0] at h
        cases hrec : gradeLoop env l c rest
            (if !testPassed t ex then false else all) with
        | error e => rw [hrec] at h; simp [Except.map] at h
        | ok p =>
          obtain ⟨rs', fl'⟩ := p
          rw [hrec] at h
          simp only [Except.map, Except.ok.injEq, Prod.mk.injEq] at h
          obtain ⟨rfl, rfl⟩ := h
          intro r hr
          rcases List.mem_cons.mp hr with hr | hr
          · exact ⟨t, ex, List.mem_cons_self _ _, hrc, hr⟩
          · obtain ⟨t', ex', ht', hex', hr'⟩ :=
              ih _ _ _ hrec r hr
            exact ⟨t', ex', List.mem_cons_of_mem _ ht', hex', hr'⟩
      · rw [gradeLoop_break env l c t rest all ex hrc h0] at h
        simp only [Except.ok.injEq, Prod.mk.injEq] at h
        obtain ⟨rfl, rfl⟩ := h
        intro r hr
        simp only [List.mem_singleton] at hr
        exact ⟨t, ex, List.mem_cons_self _ _, hrc, hr⟩

theorem gradeLoop_clean (env : ExecEnv) (l c : String) :
    ∀ (ts : List ExerciseTest) (all : Bool),
      (∀ t ∈ ts, ∃ ex, run_code env l c t.input_data = .ok ex ∧
        ex.exit_code = 0 ∧ testPassed t ex = true) →
      ∃ rs, gradeLoop env l c ts all = .ok (rs, all) ∧ rs.length = ts.length := by
  intro ts
  induction ts with
  | nil => intro all h; exact ⟨[], rfl, rfl⟩
  | cons t rest ih =>
    intro all h
    obtain ⟨ex, hex, h0, hp⟩ := h t (List.mem_cons_self _ _)
    obtain ⟨rs', hrec, hlen⟩ :=
      ih all (fun u hu => h u (List.mem_cons_of_mem _ hu))
    refine ⟨mkTestCaseResult t ex :: rs', ?_, by simp [hlen]⟩
    rw [gradeLoop_continue env l c t rest all ex hex h0, hp]
    simp only [Bool.not_true, Bool.false_eq_true, if_false] at hrec ⊢
    rw [hrec]
    rfl

theorem execute_tests_ok {env : ExecEnv} {l c : String}
    {tests : List ExerciseTest} {resp : RunTestsResponse}
    (h : execute_tests env l c tests = .ok resp) :
    gradeLoop env l c (sortTests tests) true =
      .ok (resp.results, resp.passed_all) := by
  unfold execute_tests at h
  by_cases hemp : (sortTests tests).isEmpty
  · rw [if_pos hemp] at h
    simp at h
  · rw [if_neg hemp] at h
    cases hgl : gradeLoop env l c (sortTests tests) true with
    | error e => rw [hgl] at h; cases e <;> simp at h
    | ok p =>
      obtain ⟨rs, fl⟩ := p
      rw [hgl] at h
      simp only [Except.ok.injEq] at h
      subst h
      rfl

theorem testPassed_congr {a b : ExerciseTest}
    (h : a.expected_output = b.expected_output) (ex : ExecResult) :
    testPassed a ex = testPassed b ex := by
  simp [testPassed, h]

theorem mkTestCaseResult_congr {a b : ExerciseTest} (h : SameExceptTimeout a b)
    (ex : ExecResult) : mkTestCaseResult a ex = mkTestCaseResult b ex := by
  obtain ⟨h1, h2, h3, h4⟩ := h
  simp [mkTestCaseResult, testPassed, h1, h2, h3]

theorem gradeLoop_congr (env : ExecEnv) (l c : String) :
    ∀ {ts us : List ExerciseTest}, List.Forall₂ SameExceptTimeout ts us →
      ∀ all : Bool, gradeLoop env l c ts all = gradeLoop env l c us all := by
  intro ts us h
  induction h with
  | nil => intro all; rfl
  | @cons a b as bs hrel htail ih =>
    intro all
    simp only [gradeLoop]
    rw [hrel.2.1]
    cases run_code env l c b.input_data with
    | error e => rfl
    | ok ex =>
      simp only
      rw [mkTestCaseResult_congr hrel ex, testPassed_congr hrel.2.2.1 ex,
        ih ((if !testPassed b ex then false else all))]

theorem insertTest_forall₂ {t u : ExerciseTest} (htu : SameExceptTimeout t u) :
    ∀ {ts us : List ExerciseTest}, List.Forall₂ SameExceptTimeout ts us →
      List.Forall₂ SameExceptTimeout (insertTest t ts) (insertTest u us) := by
  intro ts us h
  induction h with
  | nil => exact .cons htu .nil
  | @cons a b as bs hrel htail ih =>
    simp only [insertTest]
    rw [htu.1, hrel.1]
    by_cases hle : u.id ≤ b.id
    · rw [if_pos hle, if_pos hle]
      exact .cons htu (.cons hrel htail)
    · rw [if_neg hle, if_neg hle]
      exact .cons hrel ih

theorem sortTests_forall₂ :
    ∀ {ts us : List ExerciseTest}, List.Forall₂ SameExceptTimeout ts us →
      List.Forall₂ SameExceptTimeout (sortTests ts) (sortTests us) := by
  intro ts us h
  induction h with
  | nil => exact .nil
  | cons hrel htail ih => exact insertTest_forall₂ hrel ih

theorem sourcePath_congr {env₁ env₂ : ExecEnv}
    (hw : env₁.workdir = env₂.workdir) (config : LanguageConfig) :
    sourcePath env₁ config = sourcePath env₂ config := by
  simp [sourcePath, hw]

theorem binaryPath_congr {env₁ env₂ : ExecEnv}
    (hw : env₁.workdir = env₂.workdir) : binaryPath env₁ = binaryPath env₂ := by
  simp [binaryPath, hw]

theorem runCommand_congr {env₁ env₂ : ExecEnv}
    (hw : env₁.workdir = env₂.workdir) (config : LanguageConfig) :
    runCommand env₁ config = runCommand env₂ config := by
  simp [runCommand, sourcePath_congr hw, binaryPath_congr hw]

theorem runStep_congr {env₁ env₂ : ExecEnv} (config : LanguageConfig)
    (stdin : Option String) (hw : env₁.workdir = env₂.workdir)
    (he : env₁.elapsed = env₂.elapsed)
    (hp : ∀ cmd i, env₁.runProc cmd i (effectiveTimeout config) env₁.workdir
      = env₂.runProc cmd i (effectiveTimeout config) env₂.workdir) :
    runStep env₁ config stdin = runStep env₂ config stdin := by
  unfold runStep
  rw [runCommand_congr hw config, hp (runCommand env₂ config) stdin, he]

theorem compileOutcome_congr {env₁ env₂ : ExecEnv} (config : LanguageConfig)
    (hw : env₁.workdir = env₂.workdir)
    (hp : ∀ cmd i, env₁.runProc cmd i (effectiveTimeout config) env₁.workdir
      = env₂.runProc cmd i (effectiveTimeout config) env₂.workdir) :
    compileOutcome env₁ config = compileOutcome env₂ config := by
  unfold compileOutcome
  cases config.compile with
  | none => rfl
  | some cmd =>
    simp only
    split
    · rfl
    · rw [sourcePath_congr hw config, binaryPath_congr hw, hp _ none]

theorem run_code_eq (env : ExecEnv) {language : String} {config : LanguageConfig}
    (hres : resolve language = some config) (code : String)
    (stdin : Option String) :
    run_code env language code stdin =
      match compileOutcome env config with
      | none => .ok (runStep env config stdin)
      | some (.completed out err rc) =>
          if rc ≠ 0 then
            .ok { stdout := out, stderr := err, exit_code := rc
                  execution_time := 0 }
          else .ok (runStep env config stdin)
      | some (.fileNotFound fn) =>
          .ok { stdout := ""
                stderr := "Command not found: " ++
                  fn.getD ((config.compile.getD []).headD "")
                exit_code := 127, execution_time := 0 }
      | some (.timedOut _ _) => .error .uncaughtTimeoutExpired := by
  unfold run_code
  rw [hres]

theorem run_code_no_compile (env : ExecEnv) {language : String}
    {config : LanguageConfig} (hres : resolve language = some config)
    (code : String) (stdin : Option String)
    (hco : compileOutcome env config = none) :
    run_code env language code stdin = .ok (runStep env config stdin) := by
  rw [run_code_eq env hres code stdin, hco]

theorem run_code_compile_ok (env : ExecEnv) {language : String}
    {config : LanguageConfig} {out err : String}
    (hres : resolve language = some config) (code : String)
    (stdin : Option String)
    (hco : compileOutcome env config = some (.completed out err 0)) :
    run_code env language code stdin = .ok (runStep env config stdin) := by
  rw [run_code_eq env hres code stdin, hco]
  simp

theorem run_code_compile_fail (env : ExecEnv) {language : String}
    {config : LanguageConfig} {out err : String} {rc : Int}
    (hres : resolve language = some config) (code : String)
    (stdin : Option String)
    (hco : compileOutcome env config = some (.completed out err rc))
    (hrc : rc ≠ 0) :
    run_code env language code stdin =
      .ok { stdout := out, stderr := err, exit_code := rc
            execution_time := 0 } := by
  rw [run_code_eq env hres code stdin, hco]
  simp only
  rw [if_pos hrc]

theorem runStep_completed {env : ExecEnv} {config : LanguageConfig}
    {stdin : Option String} {out err : String} {rc : Int}
    (hrp : env.runProc (runCommand env config) stdin (effectiveTimeout config)
      env.workdir = .completed out err rc) :
    runStep env config stdin =
      { stdout := out, stderr := err, exit_code := rc
        execution_time := env.elapsed } := by
  unfold runStep
  rw [hrp]

theorem runStep_timedOut {env : ExecEnv} {config : LanguageConfig}
    {stdin : Option String} {pso pse : Option String}
    (hrp : env.runProc (runCommand env config) stdin (effectiveTimeout config)
      env.workdir = .timedOut pso pse) :
    runStep env config stdin =
      { stdout := pso.getD "", stderr := pse.getD "" ++ "\nExecution timed out."
        exit_code := -1, execution_time := env.elapsed } := by
  unfold runStep
  rw [hrp]

/-! ## The claims -/

/-- C1: for every test case attempted during grading, the harness computes
`passed` as `(exit_code == 0) AND (stdout.strip() == expected_output.strip())`,
and the result records the backend's stdout/stderr verbatim; the backend
itself returns the captured stdout/stderr raw and untrimmed, leaving
normalization to the harness. -/
theorem passed_rule_and_raw_capture :
    (∀ (env : ExecEnv) (language code : String) (tests : List ExerciseTest)
       (resp : RunTestsResponse),
       execute_tests env language code tests = .ok resp →
       ∀ r ∈ resp.results, ∃ ex,
         run_code env language code r.input_data = .ok ex ∧
         r.passed = ((ex.exit_code == 0) &&
           (strStrip ex.stdout == strStrip r.expected_output)) ∧
         r.stdout = ex.stdout ∧ r.stderr = ex.stderr) ∧
    (∀ (env : ExecEnv) (language code : String) (config : LanguageConfig)
       (stdin : Option String) (out err : String) (rc : Int),
       resolve language = some config →
       (∀ pr, compileOutcome env config = some pr →
         ∃ o e, pr = .completed o e 0) →
       env.runProc (runCommand env config) stdin (effectiveTimeout config)
         env.workdir = .completed out err rc →
       run_code env language code stdin =
         .ok { stdout := out, stderr := err, exit_code := rc
               execution_time := env.elapsed }) := by
  constructor
  · intro env language code tests resp h r hr
    obtain ⟨t, ex, ht, hrc, rfl⟩ :=
      gradeLoop_results_mem env language code _ _ _ _ (execute_tests_ok h) r hr
    exact ⟨ex, hrc, rfl, rfl, rfl⟩
  · intro env language code config stdin out err rc hres hcomp hrp
    cases hco : compileOutcome env config with
    | none => rw [run_code_no_compile env hres code stdin hco, runStep_completed hrp]
    | some pr =>
      obtain ⟨o, e, rfl⟩ := hcomp pr hco
      rw [run_code_compile_ok env hres code stdin hco, runStep_completed hrp]

/-- C2: grading stops right after the first test whose exit code is non-zero
(no later test runs); with three tests of which the first exits non-zero the
verdict has exactly one result and `passed_all = false`; a test with exit
code 0 never stops iteration, even on an output mismatch. -/
theorem short_circuit_on_nonzero_exit :
    (∀ (env : ExecEnv) (language code : String) (t : ExerciseTest)
       (rest : List ExerciseTest) (all : Bool) (ex : ExecResult),
       run_code env language code t.input_data = .ok ex → ex.exit_code ≠ 0 →
       gradeLoop env language code (t :: rest) all =
         .ok ([mkTestCaseResult t ex], false)) ∧
    (∀ (env : ExecEnv) (language code : String) (t1 t2 t3 : ExerciseTest)
       (ex : ExecResult),
       sortTests [t1, t2, t3] = [t1, t2, t3] →
       run_code env language code t1.input_data = .ok ex → ex.exit_code ≠ 0 →
       execute_tests env language code [t1, t2, t3] =
         .ok { passed_all := false, results := [mkTestCaseResult t1 ex] }) ∧
    (∀ (env : ExecEnv) (language code : String) (t : ExerciseTest)
       (rest : List ExerciseTest) (all : Bool) (ex : ExecResult),
       run_code env language code t.input_data = .ok ex → ex.exit_code = 0 →
       gradeLoop env language code (t :: rest) all =
         (gradeLoop env language code rest
           (if !testPassed t ex then false else all)).map
           (fun p => (mkTestCaseResult t ex :: p.1, p.2))) := by
  refine ⟨gradeLoop_break, ?_, gradeLoop_continue⟩
  intro env language code t1 t2 t3 ex hsort hex h0
  simp only [execute_tests, hsort]
  rw [if_neg (by simp)]
  rw [gradeLoop_break env language code t1 [t2, t3] true ex hex h0]

/-- C3: for every grading call returning a verdict, `passed_all` is true iff
every returned result passed; a verdict whose last result did not pass has
`passed_all = false` (in particular a truncated list ending in a non-zero
exit, whose result's `passed` is false by C1); and when every test runs with
exit 0 and matching trimmed output, exactly as many results as tests are
returned with `passed_all = true`. -/
theorem verdict_invariants :
    ∀ (env : ExecEnv) (language code : String) (tests : List ExerciseTest)
      (resp : RunTestsResponse),
      execute_tests env language code tests = .ok resp →
      ((resp.passed_all = true ↔ ∀ r ∈ resp.results, r.passed = true) ∧
       (∀ r, resp.results.getLast? = some r → r.passed = false →
          resp.passed_all = false) ∧
       ((∀ t ∈ tests, ∃ ex, run_code env language code t.input_data = .ok ex ∧
           ex.exit_code = 0 ∧
           strStrip ex.stdout = strStrip t.expected_output) →
         resp.results.length = tests.length ∧ resp.passed_all = true)) := by
  intro env language code tests resp h
  have hgl := execute_tests_ok h
  have hiff := gradeLoop_flag_iff env language code _ _ _ _ hgl
  simp only [true_and] at hiff
  refine ⟨hiff, ?_, ?_⟩
  · intro r hlast hpassed
    cases hall : resp.passed_all with
    | false => rfl
    | true =>
      exfalso
      have hmem : r ∈ resp.results := by
        obtain ⟨hne, hx⟩ :=
          List.mem_getLast?_eq_getLast (Option.mem_def.mpr hlast)
        rw [hx]
        exact List.getLast_mem hne
      have := (hiff.mp hall) r hmem
      rw [this] at hpassed
      simp at hpassed
  · intro hclean
    have hclean' : ∀ t ∈ sortTests tests,
        ∃ ex, run_code env language code t.input_data = .ok ex ∧
          ex.exit_code = 0 ∧ testPassed t ex = true := by
      intro t ht
      obtain ⟨ex, hex, h0, htrim⟩ := hclean t (mem_sortTests.mp ht)
      exact ⟨ex, hex, h0, by simp [testPassed, h0, htrim]⟩
    obtain ⟨rs, hgl2, hlen⟩ :=
      gradeLoop_clean env language code (sortTests tests) true hclean'
    have heq : (resp.results, resp.passed_all) = (rs, true) := by
      have := hgl.symm.trans hgl2
      simpa using this
    rw [Prod.mk.injEq] at heq
    constructor
    · rw [heq.1, hlen, sortTests_length]
    · exact heq.2

/-- C4 counterexample: with a compile step that exceeds its timeout,
`run_code` does not return a structured result — the `TimeoutExpired`
escapes as an exception, so the claim fails on that path. -/
theorem compile_timeout_raises_counterexample :
    run_code envCompileTimeout "c" "x" none =
      .error .uncaughtTimeoutExpired ∧
    (run_code envCompileTimeout "c" "x" none).toOption = none := by
  decide

/-- C4 (amended): for every request whose language resolves, `run_code`
returns exactly one structured result — never an exception — on every path
EXCEPT a compile step exceeding the timeout; all run-step outcomes
(non-zero exit, mismatch, timeout, missing executable) are data. -/
theorem single_result_unless_compile_timeout :
    ∀ (env : ExecEnv) (language code : String) (stdin : Option String)
      (config : LanguageConfig),
      resolve language = some config →
      (∀ pr, compileOutcome env config = some pr → pr.isTimedOut = false) →
      ∃ r, run_code env language code stdin = .ok r := by
  intro env language code stdin config hres hnt
  cases hco : compileOutcome env config with
  | none => exact ⟨_, run_code_no_compile env hres code stdin hco⟩
  | some pr =>
    cases pr with
    | completed o e rc =>
      by_cases hrc : rc = 0
      · subst hrc
        exact ⟨_, run_code_compile_ok env hres code stdin hco⟩
      · exact ⟨_, run_code_compile_fail env hres code stdin hco hrc⟩
    | fileNotFound fn =>
      exact ⟨_, by rw [run_code_eq env hres code stdin, hco]⟩
    | timedOut pso pse =>
      have := hnt _ hco
      simp [ProcResult.isTimedOut] at this

/-- C5: when the compile command completes with a non-zero exit code,
`run_code` returns that step's captured stdout, stderr and exit code with
`execution_time = 0.0`; the result is the same for every environment with
that compile outcome, i.e. the run step's behavior is never consulted. -/
theorem compile_failure_returns_compile_streams :
    ∀ (env : ExecEnv) (language code : String) (stdin : Option String)
      (config : LanguageConfig) (out err : String) (rc : Int),
      resolve language = some config →
      compileOutcome env config = some (.completed out err rc) → rc ≠ 0 →
      (run_code env language code stdin =
         .ok { stdout := out, stderr := err, exit_code := rc
               execution_time := 0 } ∧
       ∀ env₂ : ExecEnv,
         compileOutcome env₂ config = some (.completed out err rc) →
         run_code env₂ language code stdin = run_code env language code stdin) := by
  intro env language code stdin config out err rc hres hco hrc
  have h1 := run_code_compile_fail env hres code stdin hco hrc
  refine ⟨h1, ?_⟩
  intro env₂ hco₂
  rw [h1, run_code_compile_fail env₂ hres code stdin hco₂ hrc]

/-- C6: when the run step times out (and the compile step, if any,
succeeded), `run_code` returns the partial stdout captured so far, the
partial stderr with the timeout marker appended, `exit_code = -1`, and the
elapsed wall-clock time the harness measured. -/
theorem run_timeout_returned_as_data :
    ∀ (env : ExecEnv) (language code : String) (stdin : Option String)
      (config : LanguageConfig) (pso pse : Option String),
      resolve language = some config →
      (∀ pr, compileOutcome env config = some pr →
        ∃ o e, pr = .completed o e 0) →
      env.runProc (runCommand env config) stdin (effectiveTimeout config)
        env.workdir = .timedOut pso pse →
      run_code env language code stdin =
        .ok { stdout := pso.getD ""
              stderr := pse.getD "" ++ "\nExecution timed out."
              exit_code := -1, execution_time := env.elapsed } := by
  intro env language code stdin config pso pse hres hcomp hrp
  cases hco : compileOutcome env config with
  | none => rw [run_code_no_compile env hres code stdin hco, runStep_timedOut hrp]
  | some pr =>
    obtain ⟨o, e, rfl⟩ := hcomp pr hco
    rw [run_code_compile_ok env hres code stdin hco, runStep_timedOut hrp]

/-- C7: language resolution lowercases its input, so casing variants of one
identifier resolve identically; an identifier resolving to no profile makes
`run_code` raise `ExecutionError` (UnsupportedLanguage) before the workspace
directory would be created. -/
theorem case_insensitive_lookup_and_no_workspace :
    (∀ s₁ s₂ : String, strLower s₁ = strLower s₂ → resolve s₁ = resolve s₂) ∧
    (∀ (env : ExecEnv) (language code : String) (stdin : Option String),
       resolve language = none →
       run_code env language code stdin =
         .error (.unsupportedLanguage language) ∧
       workspaceCreated language = false) := by
  constructor
  · intro s₁ s₂ h
    unfold resolve
    rw [h]
  · intro env language code stdin hres
    constructor
    · unfold run_code
      rw [hres]
    · simp [workspaceCreated, hres]

/-- C8 counterexample: `run_code` has no timeout parameter; with an oracle
that times out exactly at the profile default of 8 seconds and completes
under every other timeout, the python run still times out — no caller-side
override can select the behavior available at any other timeout value. -/
theorem no_timeout_override_counterexample :
    run_code envProbe "python" "print(1)" none =
      .ok { stdout := "", stderr := "\nExecution timed out."
            exit_code := -1, execution_time := 9 } ∧
    envProbe.runProc ["python3", "/ws/Main.py"] none 9 "/ws" =
      .completed "done" "" 0 := by
  decide

/-- C8 (amended): `run_code` accepts no timeout override; the effective
timeout is always the profile's configured value (with an 8-second fallback),
and both the compile and the run step are invoked with that full value: the
result depends on the process oracle only at that single timeout, for both
steps. -/
theorem effective_timeout_is_profile_default :
    ∀ (env₁ env₂ : ExecEnv) (language code : String) (stdin : Option String)
      (config : LanguageConfig),
      resolve language = some config →
      env₁.workdir = env₂.workdir → env₁.elapsed = env₂.elapsed →
      (∀ cmd i, env₁.runProc cmd i (effectiveTimeout config) env₁.workdir
        = env₂.runProc cmd i (effectiveTimeout config) env₂.workdir) →
      run_code env₁ language code stdin = run_code env₂ language code stdin := by
  intro env₁ env₂ language code stdin config hres hw he hp
  rw [run_code_eq env₁ hres code stdin, run_code_eq env₂ hres code stdin,
    compileOutcome_congr config hw hp]
  cases hco : compileOutcome env₂ config with
  | none => rw [runStep_congr config stdin hw he hp]
  | some pr =>
    cases pr with
    | completed o e rc =>
      by_cases hrc : rc ≠ 0
      · simp only [if_pos hrc]
      · simp only [if_neg hrc]
        rw [runStep_congr config stdin hw he hp]
    | fileNotFound fn => rfl
    | timedOut pso pse => rfl

/-- C9: the grading verdict is independent of the per-test `timeout` column:
two test lists agreeing on every other column produce identical responses,
because the per-test timeout is never threaded into the execution. -/
theorem verdict_independent_of_per_test_timeout :
    ∀ (env : ExecEnv) (language code : String) (ts us : List ExerciseTest),
      List.Forall₂ SameExceptTimeout ts us →
      execute_tests env language code ts = execute_tests env language code us := by
  intro env language code ts us h
  have hs := sortTests_forall₂ h
  have hgl := gradeLoop_congr env language code hs true
  have hlen := hs.length_eq
  have hemp : (sortTests ts).isEmpty = (sortTests us).isEmpty := by
    cases h1 : sortTests ts <;> cases h2 : sortTests us <;> simp_all
  simp only [execute_tests, hemp, hgl]

/-- C10: the language registry has exactly the two entries `python`
(interpreted, run `python3 {source}`, timeout 8) and `c` (compiled by gcc to
the workspace binary `app.out`, which is then run, timeout 10); any other
identifier, after lowercasing, makes `run_code` raise UnsupportedLanguage. -/
theorem registry_exactly_python_and_c :
    (LANGUAGE_CONFIGS =
      [("python",
         { source_ext := ".py", compile := none
           run := ["python3", "{source}"], timeout := some 8 }),
       ("c",
         { source_ext := ".c"
           compile := some ["gcc", "{source}", "-o", "{binary}"]
           run := ["{binary}"], timeout := some 10 })]) ∧
    (∀ config, resolve "python" = some config →
       config.compile = none ∧ config.run = ["python3", "{source}"] ∧
       effectiveTimeout config = 8 ∧
       (∀ env : ExecEnv,
          runCommand env config = ["python3", env.workdir ++ "/Main" ++ ".py"])) ∧
    (∀ config, resolve "c" = some config →
       effectiveTimeout config = 10 ∧
       (∀ env : ExecEnv,
          formatCommand (config.compile.getD []) (sourcePath env config)
              (binaryPath env) =
            ["gcc", env.workdir ++ "/Main" ++ ".c", "-o",
              env.workdir ++ "/app.out"] ∧
          runCommand env config = [env.workdir ++ "/app.out"])) ∧
    (∀ (env : ExecEnv) (language code : String) (stdin : Option String),
       strLower language ≠ "python" → strLower language ≠ "c" →
       run_code env language code stdin =
         .error (.unsupportedLanguage language)) := by
  refine ⟨rfl, ?_, ?_, ?_⟩
  · intro config hres
    rw [show resolve "python" =
        some { source_ext := ".py", compile := none
               run := ["python3", "{source}"], timeout := some 8 } from rfl]
      at hres
    injection hres with h
    subst h
    refine ⟨rfl, rfl, rfl, ?_⟩
    intro env
    simp [runCommand, formatCommand, formatPart, sourcePath, binaryPath]
  · intro config hres
    rw [show resolve "c" =
        some { source_ext := ".c"
               compile := some ["gcc", "{source}", "-o", "{binary}"]
               run := ["{binary}"], timeout := some 10 } from rfl] at hres
    injection hres with h
    subst h
    refine ⟨rfl, ?_⟩
    intro env
    constructor
    · simp [formatCommand, formatPart, sourcePath, binaryPath]
    · simp [runCommand, formatCommand, formatPart, sourcePath, binaryPath]
  · intro env language code stdin h1 h2
    have hres : resolve language = none := by
      have hb1 : (strLower language == "python") = false :=
        beq_eq_false_iff_ne.mpr h1
      have hb2 : (strLower language == "c") = false :=
        beq_eq_false_iff_ne.mpr h2
      simp [resolve, LANGUAGE_CONFIGS, List.lookup, hb1, hb2]
    unfold run_code
    rw [hres]

/-! ## Witnesses: each theorem above with hypotheses, applied at a concrete
input -/

/-- Witness for C1 at a concrete passing python run. -/
theorem passed_rule_and_raw_capture_witness :
    ∃ ex, run_code envEcho "python" "x" (some "a") = .ok ex ∧
      (true : Bool) = ((ex.exit_code == 0) &&
        (strStrip ex.stdout == strStrip "hi a")) ∧
      "hi a\n" = ex.stdout ∧ "" = ex.stderr := by
  have h := passed_rule_and_raw_capture.1 envEcho "python" "x" [wtestEcho]
    { passed_all := true
      results := [{ test_id := 1, passed := true, stdout := "hi a\n"
                    stderr := "", expected_output := "hi a"
                    input_data := some "a" }] }
    (by decide)
    { test_id := 1, passed := true, stdout := "hi a\n", stderr := ""
      expected_output := "hi a", input_data := some "a" }
    (by decide)
  exact h

/-- Witness for C2: with the first of three tests crashing, exactly one
result is returned and the verdict is a failure. -/
theorem short_circuit_witness :
    execute_tests envCrashOnA "python" "x" [wtest1, wtest2, wtest3] =
      .ok { passed_all := false
            results := [mkTestCaseResult wtest1
              { stdout := "", stderr := "crash", exit_code := 1
                execution_time := 1 }] } :=
  short_circuit_on_nonzero_exit.2.1 envCrashOnA "python" "x" wtest1 wtest2
    wtest3
    { stdout := "", stderr := "crash", exit_code := 1, execution_time := 1 }
    (by decide) (by decide) (by decide)

/-- Witness for C3: an all-clean two-test run yields two results and a
passing verdict. -/
theorem verdict_invariants_witness :
    ([(⟨2, true, "ok\n", "", "ok", some "b"⟩ : TestCaseResult),
      ⟨3, true, "ok\n", "", "ok", some "c"⟩].length =
        [wtest2, wtest3].length ∧ (true : Bool) = true) := by
  have h := (verdict_invariants envCrashOnA "python" "x" [wtest2, wtest3]
    { passed_all := true
      results := [⟨2, true, "ok\n", "", "ok", some "b"⟩,
                  ⟨3, true, "ok\n", "", "ok", some "c"⟩] }
    (by decide)).2.2 ?_
  · exact h
  · intro t ht
    have ht' : t = wtest2 ∨ t = wtest3 := by simpa using ht
    rcases ht' with rfl | rfl
    · exact ⟨⟨"ok\n", "", 0, 1⟩, by decide, by decide, by decide⟩
    · exact ⟨⟨"ok\n", "", 0, 1⟩, by decide, by decide, by decide⟩

/-- Witness for the amended C4: a compile failure (not a timeout) still
produces a structured result. -/
theorem single_result_unless_compile_timeout_witness :
    ∃ r, run_code envCompileFail "c" "x" none = .ok r := by
  refine single_result_unless_compile_timeout envCompileFail "c" "x" none
    { source_ext := ".c", compile := some ["gcc", "{source}", "-o", "{binary}"]
      run := ["{binary}"], timeout := some 10 } (by decide) ?_
  intro pr hpr
  have hco : compileOutcome envCompileFail
      { source_ext := ".c", compile := some ["gcc", "{source}", "-o", "{binary}"]
        run := ["{binary}"], timeout := some 10 } =
      some (.completed "" "boom" 1) := by decide
  rw [hco] at hpr
  injection hpr with h
  subst h
  rfl

/-- Witness for C5 at a concrete failing gcc invocation. -/
theorem compile_failure_witness :
    run_code envCompileFail "c" "x" none =
      .ok { stdout := "", stderr := "boom", exit_code := 1
            execution_time := 0 } :=
  (compile_failure_returns_compile_streams envCompileFail "c" "x" none
    { source_ext := ".c", compile := some ["gcc", "{source}", "-o", "{binary}"]
      run := ["{binary}"], timeout := some 10 }
    "" "boom" 1 (by decide) (by decide) (by decide)).1

/-- Witness for C6 at a concrete timed-out run with partial output. -/
theorem run_timeout_witness :
    run_code envRunTimeout "c" "x" none =
      .ok { stdout := "par", stderr := "err\nExecution timed out."
            exit_code := -1, execution_time := 3 } := by
  have h := run_timeout_returned_as_data envRunTimeout "c" "x" none
    { source_ext := ".c", compile := some ["gcc", "{source}", "-o", "{binary}"]
      run := ["{binary}"], timeout := some 10 }
    (some "par") (some "err") (by decide) ?_ (by decide)
  · exact h
  · intro pr hpr
    have hco : compileOutcome envRunTimeout
        { source_ext := ".c", compile := some ["gcc", "{source}", "-o", "{binary}"]
          run := ["{binary}"], timeout := some 10 } =
        some (.completed "" "" 0) := by decide
    rw [hco] at hpr
    injection hpr with h
    subst h
    exact ⟨"", "", rfl⟩

/-- Witness for C7: `PYTHON` resolves like `python`; `ruby` raises and makes
no workspace. -/
theorem case_insensitive_witness :
    resolve "PYTHON" = resolve "python" ∧
    (run_code envEcho "ruby" "x" none =
       .error (.unsupportedLanguage "ruby") ∧
     workspaceCreated "ruby" = false) :=
  ⟨case_insensitive_lookup_and_no_workspace.1 "PYTHON" "python" (by decide),
   case_insensitive_lookup_and_no_workspace.2 envEcho "ruby" "x" none
     (by decide)⟩

/-- Witness for the amended C8: two oracles agreeing at the profile default
of 8 seconds (and nowhere else) give identical python executions. -/
theorem effective_timeout_witness :
    run_code envEcho "python" "x" none = run_code envEchoAlt "python" "x" none :=
  effective_timeout_is_profile_default envEcho envEchoAlt "python" "x" none
    { source_ext := ".py", compile := none
      run := ["python3", "{source}"], timeout := some 8 }
    (by decide) rfl rfl (fun cmd i => rfl)

/-- Witness for C9: changing only a per-test timeout changes nothing in the
verdict. -/
theorem verdict_timeout_independence_witness :
    execute_tests envCrashOnA "python" "x" [wtest2] =
      execute_tests envCrashOnA "python" "x" [wtest2big] :=
  verdict_independent_of_per_test_timeout envCrashOnA "python" "x"
    [wtest2] [wtest2big] (.cons ⟨rfl, rfl, rfl, rfl⟩ .nil)

/-- Witness for C10: the python profile's timeout, the formatted c run
command, and rejection of an unknown language, all at concrete inputs. -/
theorem registry_witness :
    effectiveTimeout { source_ext := ".py", compile := none
                       run := ["python3", "{source}"]
                       timeout := some 8 } = 8 ∧
    runCommand envEcho
      { source_ext := ".c", compile := some ["gcc", "{source}", "-o", "{binary}"]
        run := ["{binary}"], timeout := some 10 } = ["/ws" ++ "/app.out"] ∧
    run_code envEcho "rust" "x" none = .error (.unsupportedLanguage "rust") := by
  refine ⟨?_, ?_, ?_⟩
  · exact (registry_exactly_python_and_c.2.1 _ (by decide)).2.2.1
  · exact ((registry_exactly_python_and_c.2.2.1 _ (by decide)).2 envEcho).2
  · exact registry_exactly_python_and_c.2.2.2 envEcho "rust" "x" none
      (by decide) (by decide)

end OrusSchool
